import Mathlib

/-!
Verification of the navigation-data analyzer (`nav_analyzer.py`).

The core of the program is three pure functions:

* `analyze_movement_patterns` — distance/speed aggregates over an ordered
  sequence of position samples;
* `find_position_clusters` — single-pass online clustering with centroid
  maintenance, stable descending sort by dwell time, top-10 truncation;
* `calculate_exploration_area` — planar (x/z) footprint of the session bounds.

Embedding conventions: Python `float` values are modelled as exact rationals
(`ℚ`); `math.sqrt` forces distances and speeds into `ℝ` (`Real.sqrt`).
Python dicts become structures with the same field names; the optional
`"positions"` key (`nav_data.get("positions", [])`) becomes an `Option`.
The early-return `{"error": ...}` dict becomes the `error` constructor of a
result type; Python raises no exception on these paths, matching totality of
the Lean functions.
-/

namespace NavAnalyzer

/-- A 3-component position vector, modelling the Python list `[x, y, z]`. -/
structure Vec3 where
  x : ℚ
  y : ℚ
  z : ℚ
deriving DecidableEq

/-- One navigation sample: the dict `{"position": [...], "session_time": t}`. -/
structure Sample where
  position : Vec3
  session_time : ℚ
deriving DecidableEq

/-- `calculate_distance(pos1, pos2)`:
`math.sqrt(sum((a - b) ** 2 for a, b in zip(pos1, pos2)))` on 3-vectors. -/
noncomputable def calculate_distance (pos1 pos2 : Vec3) : ℝ :=
  Real.sqrt (((pos1.x - pos2.x) ^ 2 + (pos1.y - pos2.y) ^ 2
    + (pos1.z - pos2.z) ^ 2 : ℚ) : ℝ)

/-- A cluster dict: `{"center": ..., "positions": [...], "count": n,
"time_spent": t}`. -/
structure Cluster where
  center : Vec3
  positions : List Vec3
  count : ℕ
  time_spent : ℚ
deriving DecidableEq

/-- The "simple average" centre recomputation of `find_position_clusters`:
`[sum(p[i] for p in positions) / len(positions) for i in range(3)]`. -/
def centerMean (positions : List Vec3) : Vec3 :=
  { x := (positions.map Vec3.x).sum / positions.length,
    y := (positions.map Vec3.y).sum / positions.length,
    z := (positions.map Vec3.z).sum / positions.length }

/-- The body of the `if calculate_distance(...) <= cluster_radius` branch:
append the position, bump `count`, add 5.0 s dwell, recompute the centre. -/
def absorb (cluster : Cluster) (pos : Vec3) : Cluster :=
  let positions := cluster.positions ++ [pos]
  { center := centerMean positions,
    positions := positions,
    count := cluster.count + 1,
    time_spent := cluster.time_spent + 5 }

/-- The cluster created when no existing cluster is within radius:
`{"center": pos.copy(), "positions": [pos], "count": 1, "time_spent": 5.0}`. -/
def newCluster (pos : Vec3) : Cluster :=
  { center := pos, positions := [pos], count := 1, time_spent := 5 }

open Classical in
/-- The inner `for cluster in clusters: ... break` scan of
`find_position_clusters`: returns `some` updated cluster list as soon as the
first cluster within `cluster_radius` of `pos` absorbs it, `none` when the
scan falls through with `added_to_cluster` still false. -/
noncomputable def assign (cluster_radius : ℝ) (pos : Vec3) :
    List Cluster → Option (List Cluster)
  | [] => none
  | cluster :: rest =>
      if calculate_distance pos cluster.center ≤ cluster_radius then
        some (absorb cluster pos :: rest)
      else
        (assign cluster_radius pos rest).map (cluster :: ·)

/-- Processing of one sample position by `find_position_clusters`: absorb into
the first qualifying cluster, else append a fresh singleton cluster. -/
noncomputable def step (cluster_radius : ℝ) (clusters : List Cluster)
    (pos : Vec3) : List Cluster :=
  match assign cluster_radius pos clusters with
  | some updated => updated
  | none => clusters ++ [newCluster pos]

/-- The full `for pos_data in positions` accumulation loop of
`find_position_clusters`, before sorting and truncation. -/
noncomputable def runClusters (cluster_radius : ℝ)
    (positions : List Sample) : List Cluster :=
  positions.foldl (fun clusters pos_data => step cluster_radius clusters pos_data.position) []

/-- The comparison realised by
`clusters.sort(key=lambda x: x["time_spent"], reverse=True)`:
`a` may stay before `b` iff `b` does not have strictly more dwell time.
Python's sort is stable, as is `List.mergeSort`. -/
def clusterLE (a b : Cluster) : Bool := b.time_spent ≤ a.time_spent

/-- `find_position_clusters(positions, cluster_radius=5.0)`: the accumulation
pass, then the stable descending sort by `time_spent`, then `clusters[:10]`. -/
noncomputable def find_position_clusters (positions : List Sample)
    (cluster_radius : ℝ := 5) : List Cluster :=
  ((runClusters cluster_radius positions).mergeSort clusterLE).take 10

/-- The session statistics dict, restricted to the fields the analyzer core
reads (`min_bounds`, `max_bounds`). -/
structure Statistics where
  min_bounds : Vec3
  max_bounds : Vec3
deriving DecidableEq

/-- `calculate_exploration_area(stats)`:
`width = max_bounds[0] - min_bounds[0]`, `depth = max_bounds[2] - min_bounds[2]`,
returns `width * depth`. -/
def calculate_exploration_area (stats : Statistics) : ℚ :=
  let width := stats.max_bounds.x - stats.min_bounds.x
  let depth := stats.max_bounds.z - stats.min_bounds.z
  width * depth

/-- The input record of `analyze_movement_patterns`.  The `"positions"` key is
read with `nav_data.get("positions", [])`, so it may be absent (`none`). -/
structure NavData where
  positions : Option (List Sample)
  statistics : Statistics

/-- The accumulator of the movement loop: `total_distance`,
`max_distance_per_interval`, `speeds`. -/
structure MState where
  total_distance : ℝ
  max_distance_per_interval : ℝ
  speeds : List ℝ

/-- One iteration of `for i in range(1, len(positions))` in
`analyze_movement_patterns`, over the pair (`positions[i-1]`, `positions[i]`). -/
noncomputable def mstep (acc : MState) (pr : Sample × Sample) : MState :=
  let distance := calculate_distance pr.1.position pr.2.position
  let time_diff := pr.2.session_time - pr.1.session_time
  { total_distance := acc.total_distance + distance,
    max_distance_per_interval := max acc.max_distance_per_interval distance,
    speeds :=
      if 0 < time_diff then acc.speeds ++ [distance / (time_diff : ℝ)]
      else acc.speeds }

/-- The list of consecutive pairs (`positions[i-1]`, `positions[i]`) visited by
the loop `for i in range(1, len(positions))`. -/
def consecutivePairs (positions : List Sample) : List (Sample × Sample) :=
  positions.zip positions.tail

/-- Python's `max` over a nonempty list (used as `max(speeds)`); `0` on the
empty list, which the source guards against with `if speeds else 0`. -/
noncomputable def listMax : List ℝ → ℝ
  | [] => 0
  | s :: rest => rest.foldl max s

/-- The exploration-bounds sub-dict of the analysis result. -/
structure ExplorationBounds where
  min_bounds : Vec3
  max_bounds : Vec3
  exploration_area : ℚ
deriving DecidableEq

/-- The success payload of `analyze_movement_patterns`. -/
structure Analysis where
  total_distance_traveled : ℝ
  average_speed : ℝ
  max_speed : ℝ
  max_distance_per_interval : ℝ
  movement_clusters : List Cluster
  exploration_bounds : ExplorationBounds

/-- The two shapes of dict `analyze_movement_patterns` can return: the
`{"error": ...}` early return, or the full analysis record. -/
inductive AnalyzeResult where
  | error (msg : String)
  | ok (analysis : Analysis)

/-- The computation performed by `analyze_movement_patterns` after the
length guard has passed: the pairwise movement loop, the speed summaries,
the clustering call and the bounds sub-dict. -/
noncomputable def mkAnalysis (nav_data : NavData) : Analysis :=
  let positions := nav_data.positions.getD []
  let ms := (consecutivePairs positions).foldl mstep ⟨0, 0, []⟩
  { total_distance_traveled := ms.total_distance,
    average_speed :=
      if ms.speeds.isEmpty then 0 else ms.speeds.sum / ms.speeds.length,
    max_speed := if ms.speeds.isEmpty then 0 else listMax ms.speeds,
    max_distance_per_interval := ms.max_distance_per_interval,
    movement_clusters := find_position_clusters positions,
    exploration_bounds :=
      { min_bounds := nav_data.statistics.min_bounds,
        max_bounds := nav_data.statistics.max_bounds,
        exploration_area := calculate_exploration_area nav_data.statistics } }

/-- `analyze_movement_patterns(nav_data)`: early `{"error": ...}` return when
fewer than 2 positions were supplied, otherwise the full analysis dict. -/
noncomputable def analyze_movement_patterns (nav_data : NavData) : AnalyzeResult :=
  if (nav_data.positions.getD []).length < 2 then
    .error "Not enough position data for analysis"
  else
    .ok (mkAnalysis nav_data)

/-- The distance contributed by one consecutive pair of samples. -/
noncomputable def pairDistance (pr : Sample × Sample) : ℝ :=
  calculate_distance pr.1.position pr.2.position

/-- Distances of all consecutive pairs, in order. -/
noncomputable def pairDistances (positions : List Sample) : List ℝ :=
  (consecutivePairs positions).map pairDistance

/-- The consecutive pairs whose time difference is strictly positive — exactly
the pairs for which the loop records a speed sample. -/
def speedPairs (positions : List Sample) : List (Sample × Sample) :=
  (consecutivePairs positions).filter
    (fun pr => 0 < pr.2.session_time - pr.1.session_time)

/-- The speed samples `d / dt` recorded by the loop, described declaratively:
one per consecutive pair with `dt > 0`, in order. -/
noncomputable def speedSamples (positions : List Sample) : List ℝ :=
  (speedPairs positions).map
    (fun pr => pairDistance pr / ((pr.2.session_time - pr.1.session_time : ℚ) : ℝ))

/-- The invariant that `find_position_clusters` maintains for every cluster:
`count` tracks the member list length, `center` is the recomputed mean of the
members, and `time_spent` is 5.0 seconds per member. -/
def ClusterInv (c : Cluster) : Prop :=
  c.count = c.positions.length ∧ c.center = centerMean c.positions ∧
    c.time_spent = (c.count : ℚ) * 5

/-- Concrete statistics record used in concrete evaluations. -/
def st0 : Statistics := ⟨⟨0, 0, 0⟩, ⟨0, 0, 0⟩⟩

/-- A concrete two-sample input: `(0,0,0)` at `t = 0`, then `(3,4,0)` at
`t = 5` (distance 5, speed 1). -/
def nd2 : NavData := ⟨some [⟨⟨0, 0, 0⟩, 0⟩, ⟨⟨3, 4, 0⟩, 5⟩], st0⟩

/-! ### Lemmas about the inner cluster-assignment scan -/

lemma assign_of_forall_far {r : ℝ} {p : Vec3} :
    ∀ {clusters : List Cluster},
      (∀ c ∈ clusters, ¬ calculate_distance p c.center ≤ r) →
      assign r p clusters = none
  | [], _ => rfl
  | cluster :: rest, h => by
      rw [assign, if_neg (h cluster (by simp)),
        assign_of_forall_far (fun c hc => h c (by simp [hc]))]
      rfl

lemma assign_first_fit {r : ℝ} {p : Vec3} :
    ∀ (pre : List Cluster) {c : Cluster} (post : List Cluster),
      (∀ c' ∈ pre, ¬ calculate_distance p c'.center ≤ r) →
      calculate_distance p c.center ≤ r →
      assign r p (pre ++ c :: post) = some (pre ++ absorb c p :: post)
  | [], c, post, _, hc => by rw [List.nil_append, assign, if_pos hc]; rfl
  | d :: pre, c, post, hpre, hc => by
      rw [List.cons_append, assign, if_neg (hpre d (by simp)),
        assign_first_fit pre post (fun c' hc' => hpre c' (by simp [hc'])) hc]
      rfl

lemma mem_of_mem_assign {r : ℝ} {p : Vec3} :
    ∀ {clusters updated : List Cluster},
      assign r p clusters = some updated →
      ∀ {c' : Cluster}, c' ∈ updated →
        c' ∈ clusters ∨ ∃ c ∈ clusters, c' = absorb c p := by
  intro clusters
  induction clusters with
  | nil => intro updated h; exact absurd h (by simp [assign])
  | cons cluster rest ih =>
      intro updated h c' hc'
      rw [assign] at h
      by_cases hd : calculate_distance p cluster.center ≤ r
      · rw [if_pos hd] at h
        cases h
        rcases List.mem_cons.mp hc' with h1 | h1
        · exact Or.inr ⟨cluster, by simp, h1⟩
        · exact Or.inl (by simp [h1])
      · rw [if_neg hd] at h
        cases hrest : assign r p rest with
        | none => rw [hrest] at h; cases h
        | some u =>
            rw [hrest] at h
            cases h
            rcases List.mem_cons.mp hc' with h1 | h1
            · exact Or.inl (by simp [h1])
            · rcases ih hrest h1 with h2 | ⟨c, hcm, hce⟩
              · exact Or.inl (by simp [h2])
              · exact Or.inr ⟨c, by simp [hcm], hce⟩

lemma counts_assign {r : ℝ} {p : Vec3} :
    ∀ {clusters updated : List Cluster},
      assign r p clusters = some updated →
      (updated.map Cluster.count).sum = (clusters.map Cluster.count).sum + 1 := by
  intro clusters
  induction clusters with
  | nil => intro updated h; exact absurd h (by simp [assign])
  | cons cluster rest ih =>
      intro updated h
      rw [assign] at h
      by_cases hd : calculate_distance p cluster.center ≤ r
      · rw [if_pos hd] at h
        cases h
        simp [absorb]
        omega
      · rw [if_neg hd] at h
        cases hrest : assign r p rest with
        | none => rw [hrest] at h; cases h
        | some u =>
            rw [hrest] at h
            cases h
            simp only [List.map_cons, List.sum_cons, ih hrest]
            omega

lemma mem_of_mem_step {r : ℝ} {p : Vec3} {clusters : List Cluster}
    {c' : Cluster} (h : c' ∈ step r clusters p) :
    c' ∈ clusters ∨ (∃ c ∈ clusters, c' = absorb c p) ∨ c' = newCluster p := by
  rw [step] at h
  cases hassign : assign r p clusters with
  | none =>
      rw [hassign] at h
      rcases List.mem_append.mp h with h1 | h1
      · exact Or.inl h1
      · exact Or.inr (Or.inr (by simpa using h1))
  | some u =>
      rw [hassign] at h
      rcases mem_of_mem_assign hassign h with h1 | h1
      · exact Or.inl h1
      · exact Or.inr (Or.inl h1)

lemma counts_step (r : ℝ) (p : Vec3) (clusters : List Cluster) :
    ((step r clusters p).map Cluster.count).sum
      = (clusters.map Cluster.count).sum + 1 := by
  rw [step]
  cases hassign : assign r p clusters with
  | none => simp [newCluster]
  | some u => exact counts_assign hassign

/-! ### The per-cluster invariant -/

lemma clusterInv_newCluster (p : Vec3) : ClusterInv (newCluster p) := by
  refine ⟨rfl, ?_, by norm_num [newCluster]⟩
  simp [newCluster, centerMean]

lemma clusterInv_absorb {c : Cluster} (hc : ClusterInv c) (p : Vec3) :
    ClusterInv (absorb c p) := by
  obtain ⟨hcount, _, htime⟩ := hc
  refine ⟨by simp [absorb, hcount], rfl, ?_⟩
  simp only [absorb]
  rw [htime, hcount]
  push_cast
  ring

lemma clusterInv_foldl {r : ℝ} :
    ∀ (ps : List Sample) (acc : List Cluster),
      (∀ c ∈ acc, ClusterInv c) →
      ∀ c ∈ ps.foldl (fun cs s => step r cs s.position) acc, ClusterInv c
  | [], acc, hacc => hacc
  | s :: ps, acc, hacc => by
      refine clusterInv_foldl ps (step r acc s.position) ?_
      intro c hc
      rcases mem_of_mem_step hc with h1 | ⟨c0, hc0, rfl⟩ | rfl
      · exact hacc c h1
      · exact clusterInv_absorb (hacc c0 hc0) s.position
      · exact clusterInv_newCluster s.position

lemma counts_foldl (r : ℝ) :
    ∀ (ps : List Sample) (acc : List Cluster),
      (((ps.foldl (fun cs s => step r cs s.position) acc).map Cluster.count).sum)
        = (acc.map Cluster.count).sum + ps.length
  | [], acc => by simp
  | s :: ps, acc => by
      rw [List.foldl_cons, counts_foldl r ps, counts_step]
      simp only [List.length_cons]
      omega

/-! ### Claims C1, C2, C7 -/

/-- C1: each sample position `p` is assigned to exactly the first existing
cluster, in creation order, whose current centre is within `cluster_radius`
of `p` (only that cluster is updated); if none qualifies, a new cluster is
appended, seeded with `center = p`, `members = [p]`, `count = 1`,
`time_spent = 5.0` (the dwell increment). -/
theorem C1_first_fit_assignment (r : ℝ) (clusters : List Cluster) (p : Vec3) :
    ((∀ c ∈ clusters, ¬ calculate_distance p c.center ≤ r) →
      step r clusters p = clusters ++ [newCluster p]) ∧
    (∀ (pre : List Cluster) (c : Cluster) (post : List Cluster),
      clusters = pre ++ c :: post →
      (∀ c' ∈ pre, ¬ calculate_distance p c'.center ≤ r) →
      calculate_distance p c.center ≤ r →
      step r clusters p = pre ++ absorb c p :: post) ∧
    newCluster p = { center := p, positions := [p], count := 1, time_spent := 5 } := by
  refine ⟨fun h => ?_, fun pre c post hcl hpre hc => ?_, rfl⟩
  · rw [step, assign_of_forall_far h]
  · rw [step, hcl, assign_first_fit pre post hpre hc]

/-- Witness for C1: position `(3,0,0)` skips the far cluster centred at
`(20,0,0)` (distance 17 > 5) and is absorbed by the cluster centred at the
origin (distance 3 ≤ 5). -/
theorem C1_first_fit_assignment_witness :
    step 5 [newCluster ⟨20, 0, 0⟩, newCluster ⟨0, 0, 0⟩] ⟨3, 0, 0⟩
      = [newCluster ⟨20, 0, 0⟩, absorb (newCluster ⟨0, 0, 0⟩) ⟨3, 0, 0⟩] := by
  refine (C1_first_fit_assignment 5
      [newCluster ⟨20, 0, 0⟩, newCluster ⟨0, 0, 0⟩] ⟨3, 0, 0⟩).2.1
    [newCluster ⟨20, 0, 0⟩] (newCluster ⟨0, 0, 0⟩) [] rfl ?_ ?_
  · intro c' hc'
    rw [List.mem_singleton] at hc'
    subst hc'
    simp only [calculate_distance, newCluster]
    intro hle
    rw [Real.sqrt_le_left (by norm_num)] at hle
    norm_num at hle
  · simp only [calculate_distance, newCluster]
    rw [Real.sqrt_le_left (by norm_num)]
    norm_num

/-- C2: after any number of processed samples, every cluster in the
accumulator satisfies `count = len(members)`,
`center = coordinate-wise mean of members`, and
`time_spent = count * 5.0` (the fixed dwell increment).  Quantifying over all
input lists covers every intermediate state of a run, since the state after
`k` samples is the state for the length-`k` input. -/
theorem C2_cluster_invariants (r : ℝ) (ps : List Sample) :
    ∀ c ∈ runClusters r ps,
      c.count = c.positions.length ∧ c.center = centerMean c.positions ∧
        c.time_spent = (c.count : ℚ) * 5 := by
  intro c hc
  exact clusterInv_foldl ps [] (by simp) c hc

/-- Witness for C2: the single cluster formed from one sample at `(1,2,3)`
satisfies all three invariants. -/
theorem C2_cluster_invariants_witness :
    newCluster ⟨1, 2, 3⟩ ∈ runClusters 5 [⟨⟨1, 2, 3⟩, 0⟩] ∧
      ((newCluster ⟨1, 2, 3⟩).count = (newCluster ⟨1, 2, 3⟩).positions.length ∧
        (newCluster ⟨1, 2, 3⟩).center = centerMean (newCluster ⟨1, 2, 3⟩).positions ∧
        (newCluster ⟨1, 2, 3⟩).time_spent = ((newCluster ⟨1, 2, 3⟩).count : ℚ) * 5) := by
  have hmem : newCluster ⟨1, 2, 3⟩ ∈ runClusters 5 [⟨⟨1, 2, 3⟩, 0⟩] := by
    have hrun : runClusters 5 [⟨⟨1, 2, 3⟩, 0⟩] = [newCluster ⟨1, 2, 3⟩] := by
      simp [runClusters, step, assign]
    rw [hrun]
    exact List.mem_singleton.mpr rfl
  exact ⟨hmem, C2_cluster_invariants 5 [⟨⟨1, 2, 3⟩, 0⟩] (newCluster ⟨1, 2, 3⟩) hmem⟩

/-- C7: every sample is assigned to exactly one cluster, so before the top-10
truncation the counts of the clusters formed sum to the number of samples. -/
theorem C7_counts_sum_to_samples (r : ℝ) (ps : List Sample) :
    ((runClusters r ps).map Cluster.count).sum = ps.length := by
  simpa [runClusters] using counts_foldl r ps []

/-! ### Lemmas about the stable descending sort -/

lemma clusterLE_trans (a b c : Cluster) :
    clusterLE a b → clusterLE b c → clusterLE a c := by
  simp only [clusterLE, decide_eq_true_eq]
  exact fun h1 h2 => le_trans h2 h1

lemma clusterLE_total (a b : Cluster) : clusterLE a b || clusterLE b a := by
  simp only [clusterLE, Bool.or_eq_true, decide_eq_true_eq]
  exact le_total b.time_spent a.time_spent

lemma filter_time_mergeSort (l : List Cluster) (t : ℚ) :
    (l.mergeSort clusterLE).filter (fun c => c.time_spent = t)
      = l.filter (fun c => c.time_spent = t) := by
  have hpw : (l.filter (fun c => c.time_spent = t)).Pairwise
      (fun a b => clusterLE a b = true) := by
    apply List.pairwise_of_forall_mem_list
    intro a ha b hb
    have ha' := (List.mem_filter.mp ha).2
    have hb' := (List.mem_filter.mp hb).2
    simp only [decide_eq_true_eq] at ha' hb'
    simp [clusterLE, ha', hb']
  have hsub : List.Sublist (l.filter (fun c => c.time_spent = t))
      (l.mergeSort clusterLE) :=
    List.sublist_mergeSort clusterLE_trans clusterLE_total hpw (List.filter_sublist l)
  have hidem : (l.filter (fun c => c.time_spent = t)).filter
      (fun c => c.time_spent = t) = l.filter (fun c => c.time_spent = t) := by
    simp
  have hsubf : List.Sublist (l.filter (fun c => c.time_spent = t))
      ((l.mergeSort clusterLE).filter (fun c => c.time_spent = t)) := by
    have := hsub.filter (fun c => c.time_spent = t)
    rwa [hidem] at this
  have hlen : ((l.mergeSort clusterLE).filter (fun c => c.time_spent = t)).length
      = (l.filter (fun c => c.time_spent = t)).length :=
    ((List.mergeSort_perm l clusterLE).filter _).length_eq
  exact (hsubf.eq_of_length hlen.symm).symm

/-- C3: the returned cluster list is the clusters formed during the pass,
sorted by `time_spent` descending with ties kept in creation order (for every
dwell value `t`, the clusters with `time_spent = t` appear in the sorted list
exactly in their original order), truncated to the first 10; its length is
`min 10 (number of clusters formed)`. -/
theorem C3_sorted_stable_topk (r : ℝ) (ps : List Sample) :
    ∃ sorted : List Cluster,
      sorted.Perm (runClusters r ps) ∧
      sorted.Pairwise (fun a b => b.time_spent ≤ a.time_spent) ∧
      (∀ t : ℚ, sorted.filter (fun c => c.time_spent = t)
        = (runClusters r ps).filter (fun c => c.time_spent = t)) ∧
      find_position_clusters ps r = sorted.take 10 ∧
      (find_position_clusters ps r).length = min 10 (runClusters r ps).length := by
  refine ⟨(runClusters r ps).mergeSort clusterLE,
    List.mergeSort_perm _ _, ?_, fun t => filter_time_mergeSort _ t, rfl, ?_⟩
  · have hs := List.sorted_mergeSort clusterLE_trans clusterLE_total (runClusters r ps)
    exact hs.imp (fun h => by simpa [clusterLE] using h)
  · rw [find_position_clusters, List.length_take, List.length_mergeSort]

/-! ### Lemmas about the movement-statistics loop -/

lemma mfold_spec :
    ∀ (prs : List (Sample × Sample)) (acc : MState),
      (prs.foldl mstep acc).total_distance
          = acc.total_distance + (prs.map pairDistance).sum ∧
      (prs.foldl mstep acc).max_distance_per_interval
          = (prs.map pairDistance).foldl max acc.max_distance_per_interval ∧
      (prs.foldl mstep acc).speeds
          = acc.speeds
            ++ (prs.filter (fun pr => 0 < pr.2.session_time - pr.1.session_time)).map
              (fun pr => pairDistance pr
                / ((pr.2.session_time - pr.1.session_time : ℚ) : ℝ))
  | [], acc => by simp
  | pr :: prs, acc => by
      obtain ⟨h1, h2, h3⟩ := mfold_spec prs (mstep acc pr)
      refine ⟨?_, ?_, ?_⟩
      · rw [List.foldl_cons, h1]
        simp only [mstep, List.map_cons, List.sum_cons, pairDistance]
        ring
      · rw [List.foldl_cons, h2]
        simp only [mstep, List.map_cons, List.foldl_cons, pairDistance]
      · rw [List.foldl_cons, h3]
        by_cases hdt : 0 < pr.2.session_time - pr.1.session_time
        · rw [sub_pos] at hdt
          simp [mstep, hdt, pairDistance, sub_pos, List.filter_cons]
        · rw [sub_pos] at hdt
          simp [mstep, hdt, pairDistance, sub_pos, List.filter_cons]

lemma foldl_max_upper :
    ∀ (l : List ℝ) (a : ℝ),
      a ≤ l.foldl max a ∧ ∀ x ∈ l, x ≤ l.foldl max a
  | [], a => ⟨le_refl a, by simp⟩
  | b :: l, a => by
      obtain ⟨h1, h2⟩ := foldl_max_upper l (max a b)
      refine ⟨le_trans (le_max_left a b) h1, ?_⟩
      intro x hx
      rcases List.mem_cons.mp hx with rfl | hx
      · exact le_trans (le_max_right a x) h1
      · exact h2 x hx

lemma foldl_max_mem :
    ∀ (l : List ℝ) (a : ℝ), l.foldl max a ∈ l ∨ l.foldl max a = a
  | [], _ => Or.inr rfl
  | b :: l, a => by
      rcases foldl_max_mem l (max a b) with h | h
      · exact Or.inl (List.mem_cons_of_mem b h)
      · rcases max_choice a b with h' | h'
        · exact Or.inr (by rw [List.foldl_cons, h, h'])
        · exact Or.inl (by rw [List.foldl_cons, h, h']; exact List.mem_cons_self b l)

lemma listMax_is_max (l : List ℝ) (hne : l ≠ []) :
    (∀ x ∈ l, x ≤ listMax l) ∧ listMax l ∈ l := by
  cases l with
  | nil => exact absurd rfl hne
  | cons s rest =>
      obtain ⟨h1, h2⟩ := foldl_max_upper rest s
      constructor
      · intro x hx
        rcases List.mem_cons.mp hx with rfl | hx
        · exact h1
        · exact h2 x hx
      · rcases foldl_max_mem rest s with h | h
        · exact List.mem_cons_of_mem s (by simpa [listMax] using h)
        · rw [listMax, h]
          exact List.mem_cons_self s rest

lemma foldl_max_le_sum :
    ∀ (l : List ℝ) (a c : ℝ), (∀ d ∈ l, 0 ≤ d) → 0 ≤ c → a ≤ c →
      l.foldl max a ≤ c + l.sum
  | [], a, c, _, _, hac => by simpa using hac
  | d :: l, a, c, hl, hc, hac => by
      have hd : 0 ≤ d := hl d (by simp)
      have h := foldl_max_le_sum l (max a d) (c + d)
        (fun x hx => hl x (by simp [hx])) (by linarith) (by
          rcases max_choice a d with h' | h' <;> rw [h'] <;> linarith)
      rw [List.foldl_cons, List.sum_cons]
      linarith

lemma pairDistance_nonneg (pr : Sample × Sample) : 0 ≤ pairDistance pr :=
  Real.sqrt_nonneg _

lemma analyze_ok {nd : NavData} (h : 2 ≤ (nd.positions.getD []).length) :
    analyze_movement_patterns nd = .ok (mkAnalysis nd) := by
  rw [analyze_movement_patterns, if_neg (by omega)]

lemma mkAnalysis_fields (nd : NavData) :
    (mkAnalysis nd).total_distance_traveled
        = (pairDistances (nd.positions.getD [])).sum ∧
    (mkAnalysis nd).max_distance_per_interval
        = (pairDistances (nd.positions.getD [])).foldl max 0 ∧
    (mkAnalysis nd).average_speed
        = (if (speedSamples (nd.positions.getD [])).isEmpty then 0
           else (speedSamples (nd.positions.getD [])).sum
             / (speedSamples (nd.positions.getD [])).length) ∧
    (mkAnalysis nd).max_speed
        = (if (speedSamples (nd.positions.getD [])).isEmpty then 0
           else listMax (speedSamples (nd.positions.getD []))) := by
  obtain ⟨h1, h2, h3⟩ := mfold_spec (consecutivePairs (nd.positions.getD [])) ⟨0, 0, []⟩
  have hspeeds : ((consecutivePairs (nd.positions.getD [])).foldl mstep ⟨0, 0, []⟩).speeds
      = speedSamples (nd.positions.getD []) := by
    rw [h3]
    simp [speedSamples, speedPairs]
  refine ⟨?_, ?_, ?_, ?_⟩
  · rw [mkAnalysis, h1]
    simp [pairDistances]
  · rw [mkAnalysis, h2]
    rfl
  · rw [mkAnalysis]
    simp only [hspeeds]
  · rw [mkAnalysis]
    simp only [hspeeds]

/-! ### Claims C4, C5, C8, C10, C6, C9 -/

/-- C4: for inputs of length ≥ 2, a speed `d/dt` is recorded exactly for the
consecutive pairs with `dt > 0` (`speedSamples`); every pair contributes its
distance to `total_distance_traveled` and `max_distance_per_interval`
regardless; `average_speed` is the arithmetic mean of the recorded samples and
`max_speed` their maximum, both `0` when no pair has `dt > 0`. -/
theorem C4_speed_recording (nd : NavData)
    (h : 2 ≤ (nd.positions.getD []).length) :
    ∃ a : Analysis, analyze_movement_patterns nd = .ok a ∧
      a.total_distance_traveled = (pairDistances (nd.positions.getD [])).sum ∧
      a.max_distance_per_interval
        = (pairDistances (nd.positions.getD [])).foldl max 0 ∧
      a.average_speed
        = (if (speedSamples (nd.positions.getD [])).isEmpty then 0
           else (speedSamples (nd.positions.getD [])).sum
             / (speedSamples (nd.positions.getD [])).length) ∧
      a.max_speed
        = (if (speedSamples (nd.positions.getD [])).isEmpty then 0
           else listMax (speedSamples (nd.positions.getD []))) ∧
      (∀ s ∈ speedSamples (nd.positions.getD []), s ≤ a.max_speed) ∧
      (speedSamples (nd.positions.getD []) ≠ [] →
        a.max_speed ∈ speedSamples (nd.positions.getD [])) ∧
      (speedPairs (nd.positions.getD []) = [] →
        a.average_speed = 0 ∧ a.max_speed = 0) := by
  obtain ⟨h1, h2, h3, h4⟩ := mkAnalysis_fields nd
  refine ⟨mkAnalysis nd, analyze_ok h, h1, h2, h3, h4, ?_, ?_, ?_⟩
  · intro s hs
    have hne := List.ne_nil_of_mem hs
    rw [h4, if_neg (by simpa using hne)]
    exact (listMax_is_max _ hne).1 s hs
  · intro hne
    rw [h4, if_neg (by simpa using hne)]
    exact (listMax_is_max _ hne).2
  · intro hempty
    have hsempty : speedSamples (nd.positions.getD []) = [] := by
      rw [speedSamples, hempty]
      rfl
    rw [h3, h4, if_pos (by simp [hsempty]), if_pos (by simp [hsempty])]
    exact ⟨rfl, rfl⟩

/-- Witness for C4: the two-sample input `nd2` (distance 5, `dt = 5`). -/
theorem C4_speed_recording_witness :
    2 ≤ (nd2.positions.getD []).length ∧
      (∃ a : Analysis, analyze_movement_patterns nd2 = .ok a ∧
        a.total_distance_traveled = (pairDistances (nd2.positions.getD [])).sum ∧
        a.max_distance_per_interval
          = (pairDistances (nd2.positions.getD [])).foldl max 0 ∧
        a.average_speed
          = (if (speedSamples (nd2.positions.getD [])).isEmpty then 0
             else (speedSamples (nd2.positions.getD [])).sum
               / (speedSamples (nd2.positions.getD [])).length) ∧
        a.max_speed
          = (if (speedSamples (nd2.positions.getD [])).isEmpty then 0
             else listMax (speedSamples (nd2.positions.getD []))) ∧
        (∀ s ∈ speedSamples (nd2.positions.getD []), s ≤ a.max_speed) ∧
        (speedSamples (nd2.positions.getD []) ≠ [] →
          a.max_speed ∈ speedSamples (nd2.positions.getD [])) ∧
        (speedPairs (nd2.positions.getD []) = [] →
          a.average_speed = 0 ∧ a.max_speed = 0)) :=
  ⟨by decide, C4_speed_recording nd2 (by decide)⟩

/-- C5 counterexample: on an empty sample list the function returns the error
dict with message `"Not enough position data for analysis"`, not the literal
`{ error: "insufficient data" }` stated by the claim. -/
theorem C5_error_message_counterexample :
    analyze_movement_patterns ⟨some [], st0⟩
        = .error "Not enough position data for analysis" ∧
      ¬ analyze_movement_patterns ⟨some [], st0⟩ = .error "insufficient data" := by
  have h1 : analyze_movement_patterns ⟨some [], st0⟩
      = .error "Not enough position data for analysis" := by
    rw [analyze_movement_patterns, if_pos (by decide)]
  refine ⟨h1, ?_⟩
  rw [h1]
  intro h
  injection h with h2
  exact absurd h2 (by decide)

/-- C5 (amended): for fewer than 2 samples the analysis returns the
discriminated insufficient-data value — the ordinary return value
`{"error": "Not enough position data for analysis"}`, never an exception —
and computes no movement statistics (the error result carries none). -/
theorem C5_insufficient_data_result (nd : NavData)
    (h : (nd.positions.getD []).length < 2) :
    analyze_movement_patterns nd = .error "Not enough position data for analysis" := by
  rw [analyze_movement_patterns, if_pos h]

/-- Witness for C5 (amended): a one-sample input. -/
theorem C5_insufficient_data_result_witness :
    ((⟨some [⟨⟨7, 8, 9⟩, 1⟩], st0⟩ : NavData).positions.getD []).length < 2 ∧
      analyze_movement_patterns ⟨some [⟨⟨7, 8, 9⟩, 1⟩], st0⟩
        = .error "Not enough position data for analysis" :=
  ⟨by decide, C5_insufficient_data_result ⟨some [⟨⟨7, 8, 9⟩, 1⟩], st0⟩ (by decide)⟩

/-- C8: for inputs of length ≥ 2, the accumulated `total_distance_traveled`
dominates `max_distance_per_interval`. -/
theorem C8_total_ge_max_interval (nd : NavData)
    (h : 2 ≤ (nd.positions.getD []).length) :
    ∃ a : Analysis, analyze_movement_patterns nd = .ok a ∧
      a.max_distance_per_interval ≤ a.total_distance_traveled := by
  obtain ⟨h1, h2, _, _⟩ := mkAnalysis_fields nd
  refine ⟨mkAnalysis nd, analyze_ok h, ?_⟩
  rw [h1, h2]
  have hnn : ∀ d ∈ pairDistances (nd.positions.getD []), 0 ≤ d := by
    intro d hd
    obtain ⟨pr, _, rfl⟩ := List.mem_map.mp hd
    exact pairDistance_nonneg pr
  simpa using foldl_max_le_sum (pairDistances (nd.positions.getD [])) 0 0 hnn
    le_rfl le_rfl

/-- Witness for C8: the two-sample input `nd2`. -/
theorem C8_total_ge_max_interval_witness :
    2 ≤ (nd2.positions.getD []).length ∧
      (∃ a : Analysis, analyze_movement_patterns nd2 = .ok a ∧
        a.max_distance_per_interval ≤ a.total_distance_traveled) :=
  ⟨by decide, C8_total_ge_max_interval nd2 (by decide)⟩

/-- C10: a record without a `"positions"` key is read as
`nav_data.get("positions", [])`, hence treated exactly like an empty sample
list: the insufficient-data error value is returned, no exception raised
(the embedding of the function is total). -/
theorem C10_missing_positions_key (st : Statistics) :
    analyze_movement_patterns ⟨none, st⟩ = analyze_movement_patterns ⟨some [], st⟩ ∧
      analyze_movement_patterns ⟨none, st⟩
        = .error "Not enough position data for analysis" :=
  ⟨rfl, by rw [analyze_movement_patterns, if_pos (by simp)]⟩

/-- C6: only `analyze_movement_patterns` reports the insufficient-data marker;
the clustering and bounds computations are not gated on sample count: on
fewer than 2 samples `find_position_clusters` still returns its ordinary
result ([] for no samples, one seeded cluster for one sample, for any radius)
and `calculate_exploration_area` computes the planar area unconditionally. -/
theorem C6_ungated_cluster_and_bounds :
    (∀ r : ℝ, find_position_clusters [] r = []) ∧
    (∀ (s : Sample) (r : ℝ), find_position_clusters [s] r = [newCluster s.position]) ∧
    (∀ st : Statistics, calculate_exploration_area st
      = (st.max_bounds.x - st.min_bounds.x) * (st.max_bounds.z - st.min_bounds.z)) := by
  refine ⟨fun r => ?_, fun s r => ?_, fun st => rfl⟩
  · have hrun : runClusters r [] = [] := rfl
    rw [find_position_clusters, hrun, List.mergeSort_nil]
    rfl
  · have hrun : runClusters r [s] = [newCluster s.position] := by
      simp [runClusters, step, assign]
    rw [find_position_clusters, hrun, List.mergeSort_singleton]
    rfl

/-- C9: the exploration area is `(max.x - min.x) * (max.z - min.z)`, ignores
the vertical (`y`) components entirely, yields 200 on the spec's scenario E,
and passes negative (degenerate-bounds) results through unmodified. -/
theorem C9_planar_area :
    (∀ st : Statistics, calculate_exploration_area st
        = (st.max_bounds.x - st.min_bounds.x) * (st.max_bounds.z - st.min_bounds.z)) ∧
    (∀ (mn mx : Vec3) (y1 y2 : ℚ),
      calculate_exploration_area ⟨⟨mn.x, y1, mn.z⟩, ⟨mx.x, y2, mx.z⟩⟩
        = calculate_exploration_area ⟨mn, mx⟩) ∧
    calculate_exploration_area ⟨⟨0, 0, 0⟩, ⟨10, 5, 20⟩⟩ = 200 ∧
    calculate_exploration_area ⟨⟨10, 0, 0⟩, ⟨0, 0, 20⟩⟩ = -200 :=
  ⟨fun st => rfl, fun mn mx y1 y2 => rfl,
    by norm_num [calculate_exploration_area],
    by norm_num [calculate_exploration_area]⟩

end NavAnalyzer
